import Mathlib

/-!
# Verification of the multidb replication / reconciliation engine

Shallow embedding of the repository's core:
* `multidb_project/routers.py` — the replication-state tracker
  (`start_replication` / `stop_replication` / `is_replicating`) and the
  round-robin read router (`db_for_read`);
* `customers/signals.py` — the `replicate_customer` post-save hook;
* `orders/signals.py` — `replicate_customer_if_needed` and the
  `replicate_order` post-save hook;
* `multidb_project/management/commands/multidb.py` — `_sync_all` and
  `_compare_all` (compare / repair).

Python sets are modelled as `Finset String`; a raised exception is an
explicit error value threaded through the state; Django's synchronous
signal dispatch (each `update_or_create` on an alias re-fires the matching
post-save hook with that alias as origin) is modelled by an explicit
recursive call, bounded by fuel.
-/

namespace MultiDB

/-- Errors a propagation run can surface: `set.remove` on an absent member
(`KeyError`), a failed push to an alias (injected connectivity failure), or
fuel exhaustion of the bounded interpreter (never reached in the runs
proved below). -/
inductive SigErr where
  | keyError : SigErr
  | pushFail : String → SigErr
  | fuelOut : SigErr
deriving DecidableEq, Repr

/-- `MultiDBRouter.start_replication`: add the alias to the replicating set
(a plain set add, idempotent). -/
def start_replication (s : Finset String) (a : String) : Finset String :=
  insert a s

/-- `MultiDBRouter.stop_replication`: `set.remove`, which raises `KeyError`
when the alias is not marked. -/
def stop_replication (s : Finset String) (a : String) :
    Except SigErr (Finset String) :=
  if a ∈ s then .ok (s.erase a) else .error .keyError

/-- `MultiDBRouter.is_replicating`: membership in the replicating set. -/
def is_replicating (s : Finset String) (a : String) : Bool :=
  a ∈ s

/-- Observable events of a propagation run, in order: `tryPush a` when a
guarded block calls `start_replication(a)`, and a write event for each
`update_or_create` actually executed on an alias. -/
inductive Ev where
  | tryPush : String → Ev
  | custWrite : String → Ev
  | ordWrite : String → Ev
deriving DecidableEq, Repr

/-- State threaded through a signal cascade: which aliases hold the
customer row, which hold the order row, the tracker's replicating set, and
the event trace. -/
structure SigSt where
  cust : Finset String
  ord : Finset String
  repl : Finset String
  trace : List Ev
deriving DecidableEq

/-- Python `try: body finally: stop_replication(alias)` semantics: the
`finally` always runs; a `KeyError` raised by `stop_replication` replaces
any exception from the body. -/
def finallyStop (a : String) (r : SigSt × Option SigErr) : SigSt × Option SigErr :=
  match stop_replication r.1.repl a with
  | .ok s => ({ r.1 with repl := s }, r.2)
  | .error e => (r.1, some e)

/-- A `for alias in ...` loop whose body may raise: once an iteration ends
with an exception the loop aborts and the exception propagates. -/
def loopAliases (step : SigSt → String → SigSt × Option SigErr)
    (dbsL : List String) (st : SigSt) : SigSt × Option SigErr :=
  dbsL.foldl (fun acc a => match acc.2 with
    | some _ => acc
    | none => step acc.1 a) (st, none)

mutual

/-- `customers/signals.py::replicate_customer`, fired once per committed
customer save with `origin = instance._state.db`.  For every configured
alias other than the origin and not currently marked: mark, upsert (which
synchronously re-fires this hook with the target as origin), then
`stop_replication` in a `finally`.  `failsAt` injects a push failure on an
alias. -/
def replicate_customer (fuel : Nat) (dbsL : List String)
    (failsAt : String → Bool) (origin : String) (st : SigSt) :
    SigSt × Option SigErr :=
  match fuel with
  | 0 => (st, some .fuelOut)
  | fuel + 1 =>
    loopAliases (fun st1 a =>
      if a = origin ∨ is_replicating st1.repl a then (st1, none)
      else
        let st2 := { st1 with repl := start_replication st1.repl a,
                              trace := st1.trace ++ [.tryPush a] }
        let body :=
          if failsAt a then (st2, some (.pushFail a))
          else
            let st3 := { st2 with cust := insert a st2.cust,
                                  trace := st2.trace ++ [.custWrite a] }
            replicate_customer fuel dbsL failsAt a st3
        finallyStop a body) dbsL st

/-- `orders/signals.py::replicate_customer_if_needed`: if the customer row
is absent on the target alias, mark the alias (a second, idempotent set
add when called from inside `replicate_order`'s guarded block), upsert the
customer (re-firing `replicate_customer` with the target as origin), then
`stop_replication` in a `finally` — which removes the shared mark. -/
def replicate_customer_if_needed (fuel : Nat) (dbsL : List String)
    (failsAt : String → Bool) (a : String) (st : SigSt) :
    SigSt × Option SigErr :=
  match fuel with
  | 0 => (st, some .fuelOut)
  | fuel + 1 =>
    if a ∈ st.cust then (st, none)
    else
      let st2 := { st with repl := start_replication st.repl a,
                           trace := st.trace ++ [.tryPush a] }
      let body :=
        if failsAt a then (st2, some (.pushFail a))
        else
          let st3 := { st2 with cust := insert a st2.cust,
                                trace := st2.trace ++ [.custWrite a] }
          replicate_customer fuel dbsL failsAt a st3
      finallyStop a body

/-- `orders/signals.py::replicate_order`, fired once per committed order
save.  For every alias other than the origin and not marked: mark, ensure
the parent customer exists (`replicate_customer_if_needed`), upsert the
order (re-firing this hook with the target as origin), then
`stop_replication` in a `finally`. -/
def replicate_order (fuel : Nat) (dbsL : List String)
    (failsAt : String → Bool) (origin : String) (st : SigSt) :
    SigSt × Option SigErr :=
  match fuel with
  | 0 => (st, some .fuelOut)
  | fuel + 1 =>
    loopAliases (fun st1 a =>
      if a = origin ∨ is_replicating st1.repl a then (st1, none)
      else
        let st2 := { st1 with repl := start_replication st1.repl a,
                              trace := st1.trace ++ [.tryPush a] }
        let body :=
          match replicate_customer_if_needed fuel dbsL failsAt a st2 with
          | (stc, some e) => (stc, some e)
          | (stc, none) =>
            if failsAt a then (stc, some (.pushFail a))
            else
              let st3 := { stc with ord := insert a stc.ord,
                                    trace := stc.trace ++ [.ordWrite a] }
              replicate_order fuel dbsL failsAt a st3
        finallyStop a body) dbsL st

end

/-- The configured aliases of the reference three-database setup. -/
def dbs3 : List String := ["default", "alias2", "alias3"]

/-- A two-alias configuration. -/
def dbs2 : List String := ["default", "alias2"]

/-- No injected push failures. -/
def noFail : String → Bool := fun _ => false

/-- The write events of a trace: one per `update_or_create` executed, i.e.
one per re-fired replication hook invocation. -/
def writeEvents (tr : List Ev) : List Ev :=
  tr.filter fun e => match e with
    | .custWrite _ => true
    | .ordWrite _ => true
    | .tryPush _ => false

/-- Index of the first occurrence of an event in a trace (`length` when
absent). -/
def firstIdx (e : Ev) : List Ev → Nat
  | [] => 0
  | x :: xs => if x = e then 0 else firstIdx e xs + 1

/-- Initial state when a customer save on `default` fires its hook: the
customer row exists on the origin only. -/
def custSt0 : SigSt := ⟨{"default"}, ∅, ∅, []⟩

/-- Initial state when an order save on `default` fires its hook and the
referenced customer is absent from every replica. -/
def ordSt0 : SigSt := ⟨{"default"}, {"default"}, ∅, []⟩

/-- Initial state of an order propagation over `dbs3` with the replica
presence of the customer row (`c2`, `c3`) and of the order row (`o2`,
`o3`) chosen freely; both rows exist on the primary. -/
def mkOrdSt (c2 c3 o2 o3 : Bool) : SigSt :=
  ⟨(if c2 then {"alias2"} else ∅) ∪ (if c3 then {"alias3"} else ∅) ∪ {"default"},
   (if o2 then {"alias2"} else ∅) ∪ (if o3 then {"alias3"} else ∅) ∪ {"default"},
   ∅, []⟩

/-- The order cascade over the three-alias configuration from a chosen
initial replica state. -/
def ordRun3 (c2 c3 o2 o3 : Bool) : SigSt × Option SigErr :=
  replicate_order 16 dbs3 noFail "default" (mkOrdSt c2 c3 o2 o3)

/-- Parent-before-child on one target alias: after the run both rows exist
there and the first customer write to it precedes the first order write to
it in the trace. -/
def parentFirstOn (a : String) (r : SigSt × Option SigErr) : Prop :=
  a ∈ r.1.cust ∧ a ∈ r.1.ord ∧
    firstIdx (.custWrite a) r.1.trace < firstIdx (.ordWrite a) r.1.trace

/-!
## Bulk reconciliation engine
(`multidb_project/management/commands/multidb.py`)

Rows are modelled by their primary keys: `cust a` / `ord a` are the key
sets present on alias `a`, and `ordCust` maps an order key to its
`customer_id` (cross-alias identity is by primary key).  Counting and
presence — all that `_sync_all` / `_compare_all` act on — are preserved.
-/

/-- The two concrete entity types of the reference schema. -/
inductive EType where
  | customer : EType
  | order : EType
deriving DecidableEq, Repr

/-- A multi-database state for the reconciliation engine. -/
structure RDB where
  cust : String → Finset Nat
  ord : String → Finset Nat
  ordCust : Nat → Nat

/-- The key set of one entity type on one alias. -/
def RDB.rows (db : RDB) (a : String) : EType → Finset Nat
  | .customer => db.cust a
  | .order => db.ord a

/-- Point update of the customer key set of one alias. -/
def updCust (db : RDB) (a : String) (f : Finset Nat → Finset Nat) : RDB :=
  { db with cust := fun x => if x = a then f (db.cust x) else db.cust x }

/-- Point update of the order key set of one alias. -/
def updOrd (db : RDB) (a : String) (f : Finset Nat → Finset Nat) : RDB :=
  { db with ord := fun x => if x = a then f (db.ord x) else db.ord x }

/-- `for obj in objs: update_or_create(pk=obj.pk, ...)` — sequential upsert
of each fetched key into a target key set. -/
def upsertList (rows : List Nat) (s : Finset Nat) : Finset Nat :=
  rows.foldl (fun acc k => insert k acc) s

/-- One order row of `_sync_all`: `customer_objs.get(row["customer_id"])`
— the dependency upsert runs only when the referenced customer exists on
the primary — followed by the order upsert itself. -/
def syncOrderRow (defCust : Finset Nat) (oc : Nat → Nat) (tgt : String)
    (db : RDB) (k : Nat) : RDB :=
  let db1 := if oc k ∈ defCust then updCust db tgt (insert (oc k)) else db
  updOrd db1 tgt (insert k)

/-- `_sync_all`'s inner body for one non-primary alias: the Customer model
first (`model_order`), then each Order row with its parent dependency. -/
def syncOneAlias (db : RDB) (tgt : String) : RDB :=
  let db1 := updCust db tgt (upsertList ((db.cust "default").sort (· ≤ ·)))
  let defCust := db1.cust "default"
  ((db1.ord "default").sort (· ≤ ·)).foldl (syncOrderRow defCust db1.ordCust tgt) db1

/-- `_sync_all` covering all entity types: for every configured alias
other than `default`, push every current primary row. -/
def syncAll (dbsL : List String) (db : RDB) : RDB :=
  dbsL.foldl (fun d a => if a = "default" then d else syncOneAlias d a) db

/-- `len(set(counts.values())) == 1`: true iff the list is nonempty and
all entries are equal. -/
def allEq : List Nat → Bool
  | [] => false
  | h :: tl => tl.all (· == h)

/-- `_compare_all`'s per-type check: count rows on every alias and report
"match" iff all counts agree. -/
def compareType (dbsL : List String) (db : RDB) (t : EType) : Bool :=
  allEq (dbsL.map fun a => (db.rows a t).card)

/-- Per-type outcome of a `compare --repair` run. -/
inductive ROutcome where
  | matched : ROutcome
  | skipped : ROutcome
  | dryRunOnly : ROutcome
  | repaired : ROutcome
  | failed : ROutcome
deriving DecidableEq, Repr

/-- The actual resync of one mismatched type in `_compare_all`.  For
Customer the primary rows are upserted into every non-primary alias.  For
Order the row dict is keyed by field name — `"customer"` for the foreign
key — yet the code reads `data["customer_id"]`, so the first row raises
`KeyError`, the surrounding `except` reports a failure and nothing is
pushed; with no primary order rows the loop body never runs and the type
is reported repaired without any write. -/
def repairType (dbsL : List String) (db : RDB) : EType → RDB × ROutcome
  | .customer =>
    (((db.cust "default").sort (· ≤ ·)).foldl (fun d k =>
      dbsL.foldl (fun d2 a =>
        if a = "default" then d2 else updCust d2 a (insert k)) d) db,
     .repaired)
  | .order =>
    if db.ord "default" = ∅ then (db, .repaired)
    else (db, .failed)

/-- One model of `_compare_all`'s loop: compare counts; on mismatch,
consult the repair decision (`--repair`, or the interactive answer), then
the `--dry-run` flag, then act. -/
def repairStep (dbsL : List String) (doRep : EType → Bool) (dryRun : Bool)
    (acc : RDB × List (EType × ROutcome)) (t : EType) :
    RDB × List (EType × ROutcome) :=
  if allEq (dbsL.map fun a => (acc.1.rows a t).card) then
    (acc.1, acc.2 ++ [(t, .matched)])
  else if ¬ doRep t then (acc.1, acc.2 ++ [(t, .skipped)])
  else if dryRun then (acc.1, acc.2 ++ [(t, .dryRunOnly)])
  else
    let r := repairType dbsL acc.1 t
    (r.1, acc.2 ++ [(t, r.2)])

/-- `_compare_all` over both entity types (the registration order puts
Customer before Order). -/
def repairAll (dbsL : List String) (doRep : EType → Bool) (dryRun : Bool)
    (db : RDB) : RDB × List (EType × ROutcome) :=
  [EType.customer, EType.order].foldl (repairStep dbsL doRep dryRun) (db, [])

/-!
## Read load balancer (`MultiDBRouter.db_for_read`)

`itertools.cycle` over `list(settings.DATABASES.keys())` is modelled by a
cursor indexing the alias list modulo its length.
-/

/-- Router state: the ordered alias list and the cycle's cursor. -/
structure Router where
  read_dbs : List String
  cursor : Nat
deriving DecidableEq, Repr

/-- `db_for_read`: an explicit `database` hint is returned directly (the
cycle is not advanced); otherwise return the alias under the cursor and
advance it cyclically. -/
def db_for_read (r : Router) (hint : Option String) : String × Router :=
  match hint with
  | some d => (d, r)
  | none => (r.read_dbs.getD (r.cursor % r.read_dbs.length) "", ⟨r.read_dbs, r.cursor + 1⟩)

/-- The outputs of `n` consecutive no-hint reads. -/
def runReads (l : List String) (c : Nat) : Nat → List String
  | 0 => []
  | n + 1 => l.getD (c % l.length) "" :: runReads l (c + 1) n

/-- Parent-before-child holds on one target alias, decidably. -/
abbrev parentFirstOnD (a : String) (r : SigSt × Option SigErr) : Prop :=
  a ∈ r.1.cust ∧ a ∈ r.1.ord ∧
    firstIdx (.custWrite a) r.1.trace < firstIdx (.ordWrite a) r.1.trace

/-- Push failure injected on `alias2` only. -/
def failsAlias2 : String → Bool := fun a => a == "alias2"

/-- Database state with one customer row present only on `alias2`: a
replica-only row, absent from the primary. -/
def dbReplicaOnly : RDB :=
  ⟨fun a => if a = "alias2" then {1} else ∅, fun _ => ∅, fun _ => 0⟩

/-- Database state where every replica's rows are a subset of the
primary's. -/
def dbSubsets : RDB :=
  ⟨fun a => if a = "default" then {1, 2} else if a = "alias2" then {1} else ∅,
   fun a => if a = "default" then {1} else ∅, fun _ => 1⟩

/-- Database state with matching customer counts and a mismatched order
count: the primary holds `Order{id=1, customer_id=1}`, the replicas hold
no orders. -/
def dbOrderMismatch : RDB :=
  ⟨fun _ => {1}, fun a => if a = "default" then {1} else ∅, fun _ => 1⟩

end MultiDB

/-!
## Helper lemmas
-/

namespace MultiDB

theorem upsertList_eq (l : List Nat) (s : Finset Nat) :
    upsertList l s = s ∪ l.toFinset := by
  induction l generalizing s with
  | nil => simp [upsertList]
  | cons k tl ih =>
    show upsertList tl (insert k s) = s ∪ (k :: tl).toFinset
    rw [ih (insert k s), List.toFinset_cons, Finset.insert_union, Finset.union_insert]

theorem syncOrderRow_cust (defCust : Finset Nat) (oc : Nat → Nat) (tgt : String)
    (d : RDB) (k : Nat) (h : defCust ⊆ d.cust tgt) (x : String) :
    (syncOrderRow defCust oc tgt d k).cust x = d.cust x := by
  unfold syncOrderRow updOrd updCust
  by_cases hk : oc k ∈ defCust
  · simp only [if_pos hk]
    by_cases hx : x = tgt
    · subst hx; simp [Finset.insert_eq_self.mpr (h hk)]
    · simp [hx]
  · simp [if_neg hk]

theorem syncOrderRow_ord (defCust : Finset Nat) (oc : Nat → Nat) (tgt : String)
    (d : RDB) (k : Nat) (x : String) :
    (syncOrderRow defCust oc tgt d k).ord x
      = if x = tgt then insert k (d.ord x) else d.ord x := by
  unfold syncOrderRow updOrd updCust
  by_cases hk : oc k ∈ defCust <;> simp [hk]

theorem syncOrderRow_ordCust (defCust : Finset Nat) (oc : Nat → Nat) (tgt : String)
    (d : RDB) (k : Nat) :
    (syncOrderRow defCust oc tgt d k).ordCust = d.ordCust := by
  unfold syncOrderRow updOrd updCust
  by_cases hk : oc k ∈ defCust <;> simp [hk]

theorem syncOrderFold (defCust : Finset Nat) (oc : Nat → Nat) (tgt : String)
    (l : List Nat) (d : RDB) (h : defCust ⊆ d.cust tgt) :
    (∀ x, (l.foldl (syncOrderRow defCust oc tgt) d).cust x = d.cust x)
    ∧ (∀ x, (l.foldl (syncOrderRow defCust oc tgt) d).ord x
        = if x = tgt then d.ord x ∪ l.toFinset else d.ord x)
    ∧ (l.foldl (syncOrderRow defCust oc tgt) d).ordCust = d.ordCust := by
  induction l generalizing d with
  | nil => simp
  | cons k tl ih =>
    have h1 : defCust ⊆ (syncOrderRow defCust oc tgt d k).cust tgt := by
      rw [syncOrderRow_cust defCust oc tgt d k h]; exact h
    obtain ⟨hc, ho, hoc⟩ := ih (syncOrderRow defCust oc tgt d k) h1
    refine ⟨fun x => ?_, fun x => ?_, ?_⟩
    · rw [List.foldl_cons, hc x, syncOrderRow_cust defCust oc tgt d k h]
    · rw [List.foldl_cons, ho x, syncOrderRow_ord]
      by_cases hx : x = tgt
      · rw [if_pos hx, if_pos hx, if_pos hx, List.toFinset_cons,
          Finset.insert_union, Finset.union_insert]
      · rw [if_neg hx, if_neg hx, if_neg hx]
    · rw [List.foldl_cons, hoc, syncOrderRow_ordCust]

theorem syncOneAlias_spec (d : RDB) (tgt : String) (ht : tgt ≠ "default") :
    (∀ x, (syncOneAlias d tgt).cust x
        = if x = tgt then d.cust x ∪ d.cust "default" else d.cust x)
    ∧ (∀ x, (syncOneAlias d tgt).ord x
        = if x = tgt then d.ord x ∪ d.ord "default" else d.ord x)
    ∧ (syncOneAlias d tgt).ordCust = d.ordCust := by
  have hdt : ¬ ("default" = tgt) := fun hh => ht hh.symm
  have hb1c : ∀ x, (updCust d tgt (upsertList ((d.cust "default").sort (· ≤ ·)))).cust x
      = if x = tgt then d.cust x ∪ d.cust "default" else d.cust x := by
    intro x
    unfold updCust
    by_cases hx : x = tgt
    · subst hx
      simp [upsertList_eq, Finset.sort_toFinset]
    · simp [hx]
  set db1 := updCust d tgt (upsertList ((d.cust "default").sort (· ≤ ·))) with hdb1
  have hb1o : ∀ x, db1.ord x = d.ord x := fun x => rfl
  have hb1oc : db1.ordCust = d.ordCust := rfl
  have hdef : db1.cust "default" = d.cust "default" := by
    rw [hb1c "default", if_neg hdt]
  have hsub : db1.cust "default" ⊆ db1.cust tgt := by
    rw [hdef, hb1c tgt, if_pos rfl]
    exact Finset.subset_union_right
  obtain ⟨hc, ho, hoc⟩ :=
    syncOrderFold (db1.cust "default") db1.ordCust tgt
      ((db1.ord "default").sort (· ≤ ·)) db1 hsub
  have hrun : syncOneAlias d tgt
      = ((db1.ord "default").sort (· ≤ ·)).foldl
          (syncOrderRow (db1.cust "default") db1.ordCust tgt) db1 := rfl
  refine ⟨fun x => ?_, fun x => ?_, ?_⟩
  · rw [hrun, hc x, hb1c x]
  · rw [hrun, ho x]
    by_cases hx : x = tgt
    · rw [if_pos hx, if_pos hx, hb1o x, Finset.sort_toFinset, hb1o "default"]
    · rw [if_neg hx, if_neg hx, hb1o x]
  · rw [hrun, hoc, hb1oc]

theorem syncOneAlias_rows (d : RDB) (tgt : String) (ht : tgt ≠ "default")
    (x : String) (t : EType) :
    (syncOneAlias d tgt).rows x t
      = if x = tgt then d.rows x t ∪ d.rows "default" t else d.rows x t := by
  obtain ⟨hc, ho, _⟩ := syncOneAlias_spec d tgt ht
  cases t
  · show (syncOneAlias d tgt).cust x = _
    rw [hc x]
    by_cases hx : x = tgt <;> simp [hx, RDB.rows]
  · show (syncOneAlias d tgt).ord x = _
    rw [ho x]
    by_cases hx : x = tgt <;> simp [hx, RDB.rows]

theorem syncAll_cons (a : String) (rest : List String) (db : RDB) :
    syncAll (a :: rest) db
      = syncAll rest (if a = "default" then db else syncOneAlias db a) := rfl

theorem syncAll_rows (dbsL : List String) (db : RDB) (x : String) (t : EType) :
    (syncAll dbsL db).rows x t
      = if x ∈ dbsL ∧ x ≠ "default" then db.rows x t ∪ db.rows "default" t
        else db.rows x t := by
  induction dbsL generalizing db with
  | nil => simp [syncAll]
  | cons a rest ih =>
    rw [syncAll_cons]
    by_cases ha : a = "default"
    · rw [if_pos ha, ih db]
      have hiff : (x ∈ rest ∧ x ≠ "default") ↔ (x ∈ a :: rest ∧ x ≠ "default") := by
        subst ha
        constructor
        · rintro ⟨hx, hne⟩; exact ⟨List.mem_cons_of_mem _ hx, hne⟩
        · rintro ⟨hx, hne⟩
          rcases List.mem_cons.mp hx with hx0 | hx1
          · exact absurd hx0 hne
          · exact ⟨hx1, hne⟩
      rw [if_congr hiff rfl rfl]
    · rw [if_neg ha, ih (syncOneAlias db a)]
      have hda : (syncOneAlias db a).rows "default" t = db.rows "default" t := by
        rw [syncOneAlias_rows db a ha "default" t,
          if_neg (fun hh : "default" = a => ha hh.symm)]
      have hxa := syncOneAlias_rows db a ha x t
      by_cases h1 : x ∈ rest ∧ x ≠ "default"
      · rw [if_pos h1, if_pos ⟨List.mem_cons_of_mem _ h1.1, h1.2⟩, hda, hxa]
        by_cases hx : x = a
        · rw [if_pos hx, Finset.union_assoc, Finset.union_self]
        · rw [if_neg hx]
      · rw [if_neg h1, hxa]
        by_cases hx : x = a
        · rw [if_pos hx, if_pos ⟨List.mem_cons.mpr (Or.inl hx), hx ▸ ha⟩]
        · rw [if_neg hx]
          have : ¬ (x ∈ a :: rest ∧ x ≠ "default") := by
            rintro ⟨hm, hne⟩
            rcases List.mem_cons.mp hm with hm0 | hm1
            · exact hx hm0
            · exact h1 ⟨hm1, hne⟩
          rw [if_neg this]

theorem allEq_eq {l : List Nat} (h : allEq l = true) {x y : Nat}
    (hx : x ∈ l) (hy : y ∈ l) : x = y := by
  cases l with
  | nil => cases hx
  | cons h0 tl =>
    have key : ∀ z ∈ h0 :: tl, z = h0 := by
      intro z hz
      rcases List.mem_cons.mp hz with hz0 | hz1
      · exact hz0
      · exact eq_of_beq (List.all_eq_true.mp h z hz1)
    rw [key x hx, key y hy]

theorem allEq_of_const {l : List Nat} {c : Nat} (hne : l ≠ []) (h : ∀ x ∈ l, x = c) :
    allEq l = true := by
  cases l with
  | nil => exact absurd rfl hne
  | cons h0 tl =>
    show tl.all (· == h0) = true
    refine List.all_eq_true.mpr fun z hz => ?_
    rw [h z (List.mem_cons_of_mem _ hz), h h0 (List.mem_cons_self _ _)]
    exact beq_self_eq_true c

theorem repairStep_dry (dbsL : List String) (doRep : EType → Bool)
    (acc : RDB × List (EType × ROutcome)) (t : EType) :
    (repairStep dbsL doRep true acc t).1 = acc.1 := by
  unfold repairStep
  split
  · rfl
  · split
    · rfl
    · simp

theorem runReads_length (l : List String) (c n : Nat) :
    (runReads l c n).length = n := by
  induction n generalizing c with
  | zero => rfl
  | succ n ih => simp [runReads, ih]

theorem runReads_getElem (l : List String) (n c i : Nat)
    (hi : i < (runReads l c n).length) :
    (runReads l c n)[i] = l.getD ((c + i) % l.length) "" := by
  induction n generalizing c i with
  | zero => rw [runReads_length] at hi; cases hi
  | succ n ih =>
    cases i with
    | zero => simp [runReads]
    | succ i =>
      have hi2 : i < (runReads l (c + 1) n).length := by
        rw [runReads_length] at hi ⊢
        omega
      show (runReads l (c + 1) n)[i] = _
      rw [ih (c + 1) i hi2]
      have : c + 1 + i = c + (i + 1) := by omega
      rw [this]

theorem runReads_rotate (l : List String) (c : Nat) :
    runReads l c l.length = l.rotate (c % l.length) := by
  rcases eq_or_ne l [] with hl | hl
  · subst hl; rfl
  · have hpos : 0 < l.length := List.length_pos.mpr hl
    apply List.ext_getElem
    · rw [runReads_length, List.length_rotate]
    · intro i h1 h2
      rw [runReads_getElem, List.getElem_rotate]
      have hmod : (c + i) % l.length = (i + c % l.length) % l.length := by
        rw [Nat.add_mod c i, Nat.add_mod i (c % l.length),
          Nat.mod_mod_of_dvd c (dvd_refl l.length), Nat.add_comm (c % l.length) (i % l.length)]
      rw [hmod]
      exact List.getD_eq_getElem l "" (Nat.mod_lt _ hpos)

end MultiDB

/-!
## Claim theorems
-/

namespace MultiDB

/-- C1 (counterexample): the one-hop propagation bound fails on the code.
With two configured aliases, one original customer write on `default`
causes 2 propagated hook-firing writes (the push to `alias2` re-fires the
hook, which pushes a redundant write back to `default`), exceeding
`numAliases - 1 = 1`. -/
theorem one_hop_bound_cex :
    ¬ ((writeEvents (replicate_customer 12 dbs2 noFail "default" custSt0).1.trace).length
        ≤ dbs2.length - 1) := by decide

/-- C1 (amended): the tracker guard does not give a one-hop guarantee; it
only prevents re-entry into currently marked aliases, which makes the
cascade terminate.  With two aliases one original customer write on
`default` completes without error and performs exactly the two propagated
writes `[alias2, default]` — the second being a redundant re-propagation
onto the origin; with three aliases the same original write causes 10
propagated hook invocations. -/
theorem one_hop_bound_amended :
    (replicate_customer 12 dbs2 noFail "default" custSt0).2 = none
    ∧ writeEvents (replicate_customer 12 dbs2 noFail "default" custSt0).1.trace
        = [.custWrite "alias2", .custWrite "default"]
    ∧ (replicate_customer 14 dbs3 noFail "default" custSt0).2 = none
    ∧ (writeEvents (replicate_customer 14 dbs3 noFail "default" custSt0).1.trace).length
        = 10 := by decide

/-- C2: per-alias failure isolation fails on the code.  With three
configured aliases and the push to `alias2` raising, `replicate_customer`
lets the exception propagate out of the loop: the trace shows `alias2` as
the only attempted target — `alias3` is never attempted — and the run ends
with the raw exception instead of an aggregated report. -/
theorem push_failure_aborts_loop :
    (replicate_customer 12 dbs3 failsAlias2 "default" custSt0).2
        = some (.pushFail "alias2")
    ∧ (replicate_customer 12 dbs3 failsAlias2 "default" custSt0).1.trace
        = [.tryPush "alias2"] := by decide

/-- C3: guaranteed tracker release fails on the Order path.  Propagating an
order from `default` to `alias2` whose customer is absent there ends with
`stop_replication` itself raising `KeyError`: the nested begin/end inside
`replicate_customer_if_needed` already cleared the shared mark, so the
outer `finally` removes a member that is gone.  The mark set is
nevertheless empty afterwards. -/
theorem order_release_keyerror :
    (replicate_order 16 dbs2 noFail "default" ordSt0).2 = some .keyError
    ∧ (replicate_order 16 dbs2 noFail "default" ordSt0).1.repl = ∅ := by decide

/-- C4: parent-before-child propagation.  Over the three-alias
configuration, for every initial replica presence of the customer and
order rows, each target alias missing the customer ends up holding both
the customer and the order, and the first customer write to that alias
precedes the first order write to it in the cascade's trace. -/
theorem order_parent_before_child (c2 c3 o2 o3 : Bool) :
    (c2 = false → parentFirstOnD "alias2" (ordRun3 c2 c3 o2 o3))
    ∧ (c3 = false → parentFirstOnD "alias3" (ordRun3 c2 c3 o2 o3)) := by
  revert c2 c3 o2 o3
  decide

/-- C4 (witness): with the customer and order initially absent from both
replicas, both rows exist on each replica after propagation and the
customer write precedes the order one. -/
theorem order_parent_before_child_witness :
    parentFirstOnD "alias2" (ordRun3 false false false false)
    ∧ parentFirstOnD "alias3" (ordRun3 false false false false) :=
  ⟨(order_parent_before_child false false false false).1 rfl,
   (order_parent_before_child false false false false).2 rfl⟩

/-- C5 (counterexample): sync/compare convergence fails for a state where a
replica holds a row absent from the primary.  With the customer key 1
present only on `alias2`, `sync()` pushes nothing (sync is additive and
the primary has no rows), and the subsequent `compare()` reports a
mismatch for the Customer type. -/
theorem sync_then_compare_cex :
    compareType dbs3 (syncAll dbs3 dbReplicaOnly) .customer = false := by
  have h1 := syncAll_rows dbs3 dbReplicaOnly "default" .customer
  have h2 := syncAll_rows dbs3 dbReplicaOnly "alias2" .customer
  have h3 := syncAll_rows dbs3 dbReplicaOnly "alias3" .customer
  rw [if_neg (by decide)] at h1
  rw [if_pos (by decide)] at h2
  rw [if_pos (by decide)] at h3
  show allEq [((syncAll dbs3 dbReplicaOnly).rows "default" .customer).card,
      ((syncAll dbs3 dbReplicaOnly).rows "alias2" .customer).card,
      ((syncAll dbs3 dbReplicaOnly).rows "alias3" .customer).card] = false
  rw [h1, h2, h3]
  decide

/-- C5 (amended): after a `sync()` run covering all entity types,
`compare()` reports "match" for a type provided every alias's rows of that
type were a subset of the primary's beforehand; replica-only rows survive
sync (it is additive) and keep the counts unequal otherwise. -/
theorem sync_then_compare_match (dbsL : List String) (db : RDB) (t : EType)
    (hd : "default" ∈ dbsL)
    (hsub : ∀ a ∈ dbsL, db.rows a t ⊆ db.rows "default" t) :
    compareType dbsL (syncAll dbsL db) t = true := by
  have hall : ∀ a ∈ dbsL, (syncAll dbsL db).rows a t = db.rows "default" t := by
    intro a ha
    rw [syncAll_rows]
    by_cases hadef : a = "default"
    · rw [if_neg (by rintro ⟨_, hne⟩; exact hne hadef)]
      rw [hadef]
    · rw [if_pos ⟨ha, hadef⟩, Finset.union_eq_right.mpr (hsub a ha)]
  refine allEq_of_const (c := (db.rows "default" t).card) ?_ ?_
  · intro hmap
    rw [List.map_eq_nil_iff] at hmap
    subst hmap
    cases hd
  · intro x hx
    obtain ⟨a, ha, hax⟩ := List.mem_map.mp hx
    rw [← hax, hall a ha]

/-- C5 (witness): with primary customers `{1, 2}` and replica customers a
subset of them, `compare()` after `sync()` reports "match" for the
Customer type. -/
theorem sync_then_compare_match_witness :
    compareType dbs3 (syncAll dbs3 dbSubsets) .customer = true :=
  sync_then_compare_match dbs3 dbSubsets .customer (by decide) (by decide)

/-- C6: sync is additive-only.  No run of `sync()` removes any key from
any alias; a key present on a replica but absent from the primary is still
present after `sync()`, and the following `compare()` reports a mismatch
for that type. -/
theorem sync_additive_only (dbsL : List String) (db : RDB) (a : String)
    (t : EType) (k : Nat) (hd : "default" ∈ dbsL) (ha : a ∈ dbsL)
    (hk : k ∈ db.rows a t) (hkp : k ∉ db.rows "default" t) :
    (∀ x u, db.rows x u ⊆ (syncAll dbsL db).rows x u)
    ∧ k ∈ (syncAll dbsL db).rows a t
    ∧ compareType dbsL (syncAll dbsL db) t = false := by
  have hadef : a ≠ "default" := by
    rintro rfl; exact hkp hk
  have hsub : ∀ x u, db.rows x u ⊆ (syncAll dbsL db).rows x u := by
    intro x u
    rw [syncAll_rows]
    by_cases hx : x ∈ dbsL ∧ x ≠ "default"
    · rw [if_pos hx]; exact Finset.subset_union_left
    · rw [if_neg hx]
  have hdefrows : (syncAll dbsL db).rows "default" t = db.rows "default" t := by
    rw [syncAll_rows, if_neg (by rintro ⟨_, hne⟩; exact hne rfl)]
  have harows : (syncAll dbsL db).rows a t = db.rows a t ∪ db.rows "default" t := by
    rw [syncAll_rows, if_pos ⟨ha, hadef⟩]
  refine ⟨hsub, hsub a t hk, ?_⟩
  have hcard : (db.rows "default" t).card < ((syncAll dbsL db).rows a t).card := by
    rw [harows]
    refine Finset.card_lt_card ?_
    rw [Finset.ssubset_iff_of_subset Finset.subset_union_right]
    exact ⟨k, Finset.mem_union_left _ hk, hkp⟩
  by_contra hcmp
  have htrue : compareType dbsL (syncAll dbsL db) t = true := by
    cases hb : compareType dbsL (syncAll dbsL db) t
    · exact absurd hb hcmp
    · rfl
  have heq := allEq_eq htrue
    (List.mem_map_of_mem (fun x => ((syncAll dbsL db).rows x t).card) ha)
    (List.mem_map_of_mem (fun x => ((syncAll dbsL db).rows x t).card) hd)
  dsimp only at heq
  rw [hdefrows] at heq
  omega

/-- C6 (witness): the customer key 1 present only on `alias2` survives
`sync()` over the three-alias configuration, `sync()` deletes nothing
anywhere, and the following `compare()` reports a Customer mismatch. -/
theorem sync_additive_only_witness :
    (∀ x u, dbReplicaOnly.rows x u ⊆ (syncAll dbs3 dbReplicaOnly).rows x u)
    ∧ 1 ∈ (syncAll dbs3 dbReplicaOnly).rows "alias2" .customer
    ∧ compareType dbs3 (syncAll dbs3 dbReplicaOnly) .customer = false :=
  sync_additive_only dbs3 dbReplicaOnly "alias2" .customer 1
    (by decide) (by decide) (by decide) (by decide)

/-- C7: round-robin read balancing.  Over any window of `N` consecutive
no-override calls (`N` = number of aliases) the balancer returns the alias
list rotated to the cursor's prior position — each alias exactly once when
the configured aliases are distinct; with aliases `[A, B, C]` and the
cursor at `A`, six no-override calls return `A, B, C, A, B, C`; a call
with an override returns the override directly without advancing the
cursor. -/
theorem round_robin_reads (l : List String) (c : Nat) (o : String)
    (hl : l.Nodup) :
    runReads l c l.length = l.rotate (c % l.length)
    ∧ (∀ a ∈ l, (runReads l c l.length).count a = 1)
    ∧ runReads ["A", "B", "C"] 0 6 = ["A", "B", "C", "A", "B", "C"]
    ∧ db_for_read ⟨l, c⟩ (some o) = (o, ⟨l, c⟩) := by
  refine ⟨runReads_rotate l c, fun a ha => ?_, by decide, rfl⟩
  rw [runReads_rotate l c, (List.rotate_perm l (c % l.length)).count_eq a]
  exact List.count_eq_one_of_mem hl ha

/-- C7 (witness): the round-robin guarantee at the concrete three-alias
configuration with the cursor at the start. -/
theorem round_robin_reads_witness :
    runReads ["A", "B", "C"] 0 (["A", "B", "C"] : List String).length
        = (["A", "B", "C"] : List String).rotate (0 % (["A", "B", "C"] : List String).length)
    ∧ (∀ a ∈ (["A", "B", "C"] : List String),
        (runReads ["A", "B", "C"] 0 (["A", "B", "C"] : List String).length).count a = 1)
    ∧ runReads ["A", "B", "C"] 0 6 = ["A", "B", "C", "A", "B", "C"]
    ∧ db_for_read ⟨["A", "B", "C"], 0⟩ (some "alias2") = ("alias2", ⟨["A", "B", "C"], 0⟩) :=
  round_robin_reads ["A", "B", "C"] 0 "alias2" (by decide)

/-- C8: repair's resync of a mismatched Order type fails on the code.  At a
state where customer counts match and the primary holds one order the
replicas lack, `compare --repair` leaves the database exactly unchanged
and reports the Order repair as failed: the row dict is keyed by the field
name `customer`, yet the code reads `data["customer_id"]`, raising
`KeyError` before any push — no parent-first upsert into any alias
happens. -/
theorem repair_order_fails :
    (repairAll dbs3 (fun _ => true) false dbOrderMismatch).1 = dbOrderMismatch
    ∧ (repairAll dbs3 (fun _ => true) false dbOrderMismatch).2
        = [(.customer, .matched), (.order, .failed)] :=
  ⟨rfl, by decide⟩

/-- C9: dry-run repair is pure.  For every database state and every repair
decision per type, `compare --repair --dry-run` returns the database
unchanged — no row set of any alias is modified. -/
theorem repair_dry_run_pure (dbsL : List String) (doRep : EType → Bool) (db : RDB) :
    (repairAll dbsL doRep true db).1 = db := by
  show (repairStep dbsL doRep true (repairStep dbsL doRep true (db, []) .customer) .order).1
      = db
  rw [repairStep_dry, repairStep_dry]

/-- C10: the tracker's marks are a plain set, not a reentrant counter, and
`stop_replication` is partial.  For an unmarked alias, two `begin`s leave a
single mark; one `end` already clears it (`is_replicating` is false while
the outer guarded block still runs), and the outer matching `end` raises
`KeyError`. -/
theorem tracker_set_not_counter (s : Finset String) (a : String) (h : a ∉ s) :
    start_replication (start_replication s a) a = start_replication s a
    ∧ stop_replication (start_replication (start_replication s a) a) a = .ok s
    ∧ is_replicating s a = false
    ∧ stop_replication s a = .error .keyError := by
  refine ⟨Finset.insert_idem a s, ?_, ?_, ?_⟩
  · show stop_replication (insert a (insert a s)) a = .ok s
    unfold stop_replication
    rw [Finset.insert_idem, if_pos (Finset.mem_insert_self a s), Finset.erase_insert h]
  · simp [is_replicating, h]
  · unfold stop_replication
    rw [if_neg h]

/-- C10 (witness): the nested begin/begin/end/end sequence on `alias2`
starting from an empty mark set. -/
theorem tracker_set_not_counter_witness :
    start_replication (start_replication ∅ "alias2") "alias2"
        = start_replication ∅ "alias2"
    ∧ stop_replication (start_replication (start_replication ∅ "alias2") "alias2") "alias2"
        = .ok ∅
    ∧ is_replicating ∅ "alias2" = false
    ∧ stop_replication ∅ "alias2" = .error .keyError :=
  tracker_set_not_counter ∅ "alias2" (by decide)

end MultiDB
